import Mathlib

/-!
Verification development for the molokki repository.

The repository's visible Python sources are two Rust-test generators
(src/fallout-save-editor/hack/gen_saves.py and gen_save_script_tests.py)
and a GDB helper command (src/swkotor-mod/scripts/find_disassemble.py).
The save-archive engine they exercise (try_decompress_dat2, dat2,
ScriptTagType) is not part of the visible sources, so it is modelled here
from the repository specification; the two Python scripts are embedded
directly from their sources.
-/

/-- Modelled from the spec: §7 error kinds of the archive engine, whose
implementation is absent from src/.  All three kinds are terminal for the
current decode call. -/
inductive DecodeError where
  | unexpectedEof
  | corruptArchive
  | unrecognizedScriptTag
deriving DecidableEq

/-- Modelled from the spec: §3 Header, whose decoder implementation is absent
from src/.  Only the two variable counts are semantically required; other
header metadata is opaque and not modelled (spec §4.3 open question: exact
extra header fields are unknown, and the spec forbids guessing them into
existence). -/
structure Header where
  local_variable_count : Nat
  global_variable_count : Nat
deriving DecidableEq

/-- Modelled from the spec: §3 VariableTables (implementation absent from
src/): two ordered sequences of signed 32-bit values. -/
structure VariableTables where
  local_variables : List Int
  global_variables : List Int
deriving DecidableEq

/-- Modelled from the spec: §3 ScriptTagType (implementation absent from
src/): a closed enumeration of script invocation classifications.  The
spec names map-entry, timed/periodic, spatial-trigger and item-use scripts
as examples; the exact member set and raw codes are an open question of the
spec, so the four named kinds with codes 0..3 stand in for it. -/
inductive ScriptTagType where
  | mapEntry
  | timed
  | spatial
  | itemUse
deriving DecidableEq

/-- Modelled from the spec: §3/§9 fallible conversion from a raw tag value to
`ScriptTagType` (the `ScriptTagType::try_from` called by the generated tests,
implementation absent from src/).  Unknown codes yield no variant; no variant
silently defaults. -/
def ScriptTagType.tryFrom (v : Nat) : Option ScriptTagType :=
  match v with
  | 0 => some .mapEntry
  | 1 => some .timed
  | 2 => some .spatial
  | 3 => some .itemUse
  | _ => none

/-- Modelled from the spec: §3 ScriptRecord (implementation absent from
src/): identifier, owned local-variable slot range, and validated tag. -/
structure ScriptRecord where
  id : Nat
  local_variable_offset : Nat
  local_variable_count : Nat
  script_type : ScriptTagType
deriving DecidableEq

/-- Modelled from the spec: §3 assembled Archive result (implementation
absent from src/).  The middle component is the `variables` value of the
generated tests; it is named `variableTables` here because `variables` is a
reserved word in Lean. -/
structure Archive where
  header : Header
  variableTables : VariableTables
  scripts : List ScriptRecord
deriving DecidableEq

/-- Modelled from the spec: §4.1 Byte Reader (implementation absent from
src/): a cursor over an immutable byte sequence.  Bytes are modelled as
natural numbers; reads reduce each byte modulo 256. -/
structure ByteReader where
  buf : List Nat
  pos : Nat
deriving DecidableEq

/-- Modelled from the spec: §4.1 `remaining()` of the Byte Reader. -/
def ByteReader.remaining (r : ByteReader) : Nat := r.buf.length - r.pos

/-- A decoding stage: consumes bytes from a reader, yielding a value and the
advanced reader, or a terminal `DecodeError`. -/
@[reducible] def Stage (α : Type) : Type := ByteReader → Except DecodeError (α × ByteReader)

/-- Stage that consumes nothing and returns a value. -/
def pureS {α : Type} (a : α) : Stage α := fun r => .ok (a, r)

/-- Sequencing of stages; errors propagate unchanged (spec §7: no stage
catches and downgrades another stage's error). -/
def bindS {α β : Type} (f : Stage α) (g : α → Stage β) : Stage β := fun r =>
  match f r with
  | .ok (a, r1) => g a r1
  | .error e => .error e

/-- Modelled from the spec: §4.1 `read_bytes(n)` (implementation absent from
src/): succeeds when at least `n` bytes remain, advancing the position by
exactly `n`; otherwise fails with `UnexpectedEof`.  The buffer is never
mutated and no byte past the end is touched. -/
def readBytesS (n : Nat) : Stage (List Nat) := fun r =>
  if r.pos + n ≤ r.buf.length then
    .ok ((r.buf.drop r.pos).take n, ⟨r.buf, r.pos + n⟩)
  else
    .error .unexpectedEof

/-- Little-endian value of a byte list (spec §6: all multi-byte integers are
little-endian); each entry is reduced modulo 256. -/
def leNat (bs : List Nat) : Nat := bs.foldr (fun b acc => b % 256 + 256 * acc) 0

/-- Modelled from the spec: §4.1 `read_u8` (implementation absent from src/). -/
def readU8S : Stage Nat := bindS (readBytesS 1) (fun bs => pureS (leNat bs))

/-- Modelled from the spec: §4.1 `read_u16`, little-endian (implementation
absent from src/). -/
def readU16S : Stage Nat := bindS (readBytesS 2) (fun bs => pureS (leNat bs))

/-- Modelled from the spec: §4.1 `read_u32`, little-endian (implementation
absent from src/). -/
def readU32S : Stage Nat := bindS (readBytesS 4) (fun bs => pureS (leNat bs))

/-- Two's-complement reinterpretation of an unsigned 32-bit value as a signed
one. -/
def toI32 (v : Nat) : Int := if v < 2 ^ 31 then (v : Int) else (v : Int) - 2 ^ 32

/-- Modelled from the spec: §4.4 signed 32-bit read used by the variable
table decoder (implementation absent from src/). -/
def readI32S : Stage Int := bindS readU32S (fun v => pureS (toI32 v))

/-- Modelled from the spec: §4.1 `skip(n)` (implementation absent from src/). -/
def skipS (n : Nat) : Stage Unit := bindS (readBytesS n) (fun _ => pureS ())

/-- Modelled from the spec: §4.3 Header Decoder (implementation absent from
src/): reads the declared local-variable count then the global-variable
count as little-endian u32 starting at offset 0 of the decompressed buffer.
No further header fields are modelled (spec §9: do not guess additional
header fields into existence). -/
def decodeHeader : Stage Header :=
  bindS readU32S (fun lc => bindS readU32S (fun gc => pureS ⟨lc, gc⟩))

/-- Modelled from the spec: §4.4 count-driven loop reading exactly `n` signed
32-bit values (implementation absent from src/). -/
def readI32List : Nat → Stage (List Int)
  | 0 => pureS []
  | n + 1 => bindS readI32S (fun v => bindS (readI32List n) (fun vs => pureS (v :: vs)))

/-- Modelled from the spec: §4.4 Variable Table Decoder (implementation
absent from src/): reads exactly `header.local_variable_count` signed 32-bit
values, then exactly `header.global_variable_count`, in that order; the
counts come from the already-parsed header. -/
def decodeVariables (h : Header) : Stage VariableTables :=
  bindS (readI32List h.local_variable_count) (fun ls =>
    bindS (readI32List h.global_variable_count) (fun gs => pureS ⟨ls, gs⟩))

/-- Modelled from the spec: §4.5 conversion of a raw tag value into a
`ScriptTagType` within the record decoder; conversion failure aborts the
decode with `UnrecognizedScriptTag` (implementation absent from src/). -/
def tagStage (t : Nat) : Stage ScriptTagType := fun r =>
  match ScriptTagType.tryFrom t with
  | some tt => .ok (tt, r)
  | none => .error .unrecognizedScriptTag

/-- Modelled from the spec: §4.5 one script record (implementation absent
from src/): `id`, `local_variable_offset`, `local_variable_count` as
fixed-width integers in that field order, then the raw tag value converted
to `ScriptTagType`. -/
def decodeScriptRecord : Stage ScriptRecord :=
  bindS readU32S (fun i =>
    bindS readU32S (fun o =>
      bindS readU32S (fun c =>
        bindS readU32S (fun t =>
          bindS (tagStage t) (fun tt => pureS ⟨i, o, c, tt⟩)))))

/-- Modelled from the spec: §4.5 count-driven loop reading exactly `n` script
records, output order matching the byte-stream order (implementation absent
from src/). -/
def decodeScriptRecords : Nat → Stage (List ScriptRecord)
  | 0 => pureS []
  | n + 1 => bindS decodeScriptRecord (fun s =>
      bindS (decodeScriptRecords n) (fun rest => pureS (s :: rest)))

/-- Modelled from the spec: §4.5 Script Table Decoder (implementation absent
from src/): a single count prefix, then that many records. -/
def decodeScripts : Stage (List ScriptRecord) :=
  bindS readU32S (fun n => decodeScriptRecords n)

/-- Modelled from the spec: §4.6 decode pipeline over one reader, positions
threaded through header → variables → scripts (implementation absent from
src/). -/
def dat2Aux : Stage Archive :=
  bindS decodeHeader (fun h =>
    bindS (decodeVariables h) (fun v =>
      bindS decodeScripts (fun s => pureS ⟨h, v, s⟩)))

/-- Modelled from the spec: the `dat2` archive decoder called by the
generated tests (implementation absent from src/): runs the pipeline over a
fresh reader at position 0 of the decompressed bytes.  Any stage failure
propagates unchanged; no partial result is ever returned. -/
def dat2 (y : List Nat) : Except DecodeError Archive :=
  match dat2Aux ⟨y, 0⟩ with
  | .ok (a, _) => .ok a
  | .error e => .error e

/-- Modelled from the spec: §4.2 fixed-size magic/signature region used by
the deterministic compression-detection rule (implementation absent from
src/; the concrete signature is unknown, so the ASCII bytes of "DAT2" stand
in for it). -/
def dat2Magic : List Nat := [68, 65, 84, 50]

/-- Modelled from the spec: §4.2 the pluggable expansion strategy, whose
exact proprietary algorithm is explicitly out of scope in the spec; a
minimal run-based expansion stands in for it: the payload is a sequence of
(count, byte) pairs, each expanding to `count` copies of `byte`, and a
truncated trailing pair is an internally inconsistent stream
(`CorruptArchive`, spec §7). -/
def rleExpand : List Nat → Except DecodeError (List Nat)
  | [] => .ok []
  | [_] => .error .corruptArchive
  | n :: b :: rest =>
    match rleExpand rest with
    | .ok out => .ok (List.replicate (n % 256) (b % 256) ++ out)
    | .error e => .error e

/-- Modelled from the spec: §4.2 Decompressor `try_decompress` (the
`try_decompress_dat2` called by the generated tests, implementation absent
from src/): inspects the fixed-size signature region; when it matches, the
payload is expanded (failure is `CorruptArchive`, never partial output);
otherwise the input passes through unchanged. -/
def tryDecompress (x : List Nat) : Except DecodeError (List Nat) :=
  if x.take 4 = dat2Magic then rleExpand (x.drop 4) else .ok x

/-- Modelled from the spec: §4.6 Archive Assembler `parse_archive`
(implementation absent from src/): `try_decompress` then the `dat2` pipeline
over the normalized bytes; any stage failure propagates unchanged. -/
def parseArchive (x : List Nat) : Except DecodeError Archive :=
  match tryDecompress x with
  | .ok y => dat2 y
  | .error e => .error e

/-- A well-behaved decoding stage: on success the buffer is unchanged, the
position only advances and (unless the stage consumed nothing) stays within
the buffer; the stage's behaviour is stable under truncating the buffer at
or beyond the final position, and truncating strictly before the final
position makes it fail with `UnexpectedEof`. -/
def GoodStage {α : Type} (f : Stage α) : Prop :=
  ∀ buf pos a buf2 pos2, f ⟨buf, pos⟩ = .ok (a, ⟨buf2, pos2⟩) →
    buf2 = buf ∧ pos ≤ pos2 ∧ (pos2 = pos ∨ pos2 ≤ buf.length) ∧
    (∀ k, pos2 ≤ k → k ≤ buf.length → f ⟨buf.take k, pos⟩ = .ok (a, ⟨buf.take k, pos2⟩)) ∧
    (∀ k, pos ≤ k → k < pos2 → f ⟨buf.take k, pos⟩ = .error .unexpectedEof)

/-- Concrete archive bytes for the spec's §8 scenario: header counts 3 and 2,
locals 1,2,3, globals 10,11, one script record with id 7, offset 0, count 3
and a known-valid tag code 2. -/
def c7buf : List Nat :=
  [3, 0, 0, 0, 2, 0, 0, 0,
   1, 0, 0, 0, 2, 0, 0, 0, 3, 0, 0, 0,
   10, 0, 0, 0, 11, 0, 0, 0,
   1, 0, 0, 0,
   7, 0, 0, 0, 0, 0, 0, 0, 3, 0, 0, 0, 2, 0, 0, 0]

/-- The archive decoded from `c7buf`. -/
def c7archive : Archive :=
  ⟨⟨3, 2⟩, ⟨[1, 2, 3], [10, 11]⟩, [⟨7, 0, 3, .spatial⟩]⟩

/-- Archive bytes whose single script record carries the unrecognized raw
tag value 9: header counts 0 and 0, script count 1, record id 5, offset 0,
count 0, tag 9. -/
def c2buf : List Nat :=
  [0, 0, 0, 0, 0, 0, 0, 0,
   1, 0, 0, 0,
   5, 0, 0, 0, 0, 0, 0, 0, 0, 0, 0, 0, 9, 0, 0, 0]

/-- Archive bytes whose single script record declares a local-variable span
(offset 0, count 5) escaping the empty local-variable table: header counts
0 and 0, script count 1, record id 1, offset 0, count 5, tag 1. -/
def c3buf : List Nat :=
  [0, 0, 0, 0, 0, 0, 0, 0,
   1, 0, 0, 0,
   1, 0, 0, 0, 0, 0, 0, 0, 5, 0, 0, 0, 1, 0, 0, 0]

/-- The archive decoded from `c3buf`. -/
def c3archive : Archive :=
  ⟨⟨0, 0⟩, ⟨[], []⟩, [⟨1, 0, 5, .timed⟩]⟩

/-- A compressed buffer whose expansion again begins with the compression
signature: the payload expands to the magic bytes followed by a lone 0, so a
second decompression attempt hits a truncated pair. -/
def c4buf : List Nat :=
  dat2Magic ++ [1, 68, 1, 65, 1, 84, 1, 50, 1, 0]

/-- One observable effect of the GDB command in
src/swkotor-mod/scripts/find_disassemble.py: a Python `print`, or a
`gdb.execute` of a command string (the only way the debuggee is queried). -/
inductive PyAction where
  | print (s : String)
  | gdbExec (cmd : String)
deriving DecidableEq

/-- Whether an action queries GDB (a `gdb.execute` call). -/
def PyAction.isGdbExec : PyAction → Bool
  | .print _ => false
  | .gdbExec _ => true

/-- The usage message printed by FindAndDisassemble.invoke
(find_disassemble.py line 12). -/
def usageMsg : String :=
  "Usage: find-disassemble <start_address> <end_address> <byte1> <byte2> ..."

/-- Python `hex(i)`: lowercase hexadecimal with a `0x` marker and a leading
minus sign for negative values (find_disassemble.py line 22). -/
def pyHex (i : Int) : String :=
  if i < 0 then ("-0x") ++ String.mk (Nat.toDigits 16 i.natAbs)
  else ("0x") ++ String.mk (Nat.toDigits 16 i.natAbs)

/-- The list comprehension `[int(byte, 0) for byte in args[2:]]`
(find_disassemble.py line 18): elements are parsed left to right and the
first `ValueError` aborts the whole comprehension.  `pyInt` models Python's
`int(s, 0)` and returns `none` where Python raises. -/
def parseIntList (pyInt : String → Option Int) : List String → Option (List Int)
  | [] => some []
  | s :: rest =>
    match pyInt s with
    | none => none
    | some v =>
      match parseIntList pyInt rest with
      | none => none
      | some vs => some (v :: vs)

/-- Whether the first list is a leading segment of the second. -/
def listStartsWith : List Char → List Char → Bool
  | [], _ => true
  | _ :: _, [] => false
  | a :: as, b :: bs => a == b && listStartsWith as bs

/-- Whether the needle occurs as a contiguous subsequence of the haystack
(Python's `in` operator on strings). -/
def listContainsSeq (needle : List Char) : List Char → Bool
  | [] => listStartsWith needle []
  | c :: rest => listStartsWith needle (c :: rest) || listContainsSeq needle rest

/-- Python `needle in hay` for strings (find_disassemble.py lines 23 and 38). -/
def strContains (hay needle : String) : Bool := listContainsSeq needle.toList hay.toList

/-- The loop over `found_addr.splitlines()` (find_disassemble.py lines
32-39): for each line starting with `0x`, disassemble it via `gdb.execute`
and collect the instruction when it contains `320`.  Returns the
`gdb.execute` actions in line order together with `maybe_hit`.  Lines are
obtained by splitting on a newline, a faithful model of `splitlines` for
newline-terminated GDB output (a trailing empty piece never starts with
`0x`, so it is inert). -/
def scanLines (ex : String → String) : List String → List PyAction × List String
  | [] => ([], [])
  | line :: rest =>
    if line.startsWith ("0x") then
      let cmd := ("x/1i ") ++ line
      let ins := ex cmd
      let (acts, hits) := scanLines ex rest
      (PyAction.gdbExec cmd :: acts,
       if strContains ins ("320") then ins :: hits else hits)
    else scanLines ex rest

/-- FindAndDisassemble.invoke (find_disassemble.py lines 9-47), embedded
over the token list produced by `gdb.string_to_argv(arg)`.  `ex` models
`gdb.execute(cmd, to_string=True)` and `pyInt` models `int(s, 0)` (returning
`none` where Python raises ValueError).  The result is the ordered list of
observable actions together with `true` when the call returned normally and
`false` when an uncaught exception aborted it. -/
def invoke (ex : String → String) (pyInt : String → Option Int) (args : List String) :
    List PyAction × Bool :=
  if args.length < 3 then
    ([PyAction.print usageMsg], true)
  else
    match args with
    | a0 :: a1 :: rest2 =>
      let acts0 : List PyAction := [PyAction.print ("starting")]
      match pyInt a0 with
      | none => (acts0, false)
      | some startAddr =>
        match pyInt a1 with
        | none => (acts0, false)
        | some endAddr =>
          match parseIntList pyInt rest2 with
          | none => (acts0, false)
          | some patt =>
            let acts1 := acts0 ++ [PyAction.print ("okay")]
            let findCmd := ("find /b ") ++ toString startAddr ++ (", ") ++
              toString endAddr ++ (", ") ++
              String.intercalate (", ") (patt.map pyHex)
            let found := ex findCmd
            let acts2 := acts1 ++ [PyAction.gdbExec findCmd]
            if strContains found ("pattern not found") then
              (acts2 ++ [PyAction.print ("No matches found.")], true)
            else
              let acts3 := acts2 ++ [PyAction.print ("found matches")]
              let scanned := scanLines ex (found.splitOn ("\n"))
              let acts4 := acts3 ++ scanned.1
              if scanned.2.length = 0 then
                (acts4 ++ [PyAction.print ("found nothing")], true)
              else
                (acts4 ++ [PyAction.print ("found matches")] ++ scanned.2.map PyAction.print, true)
    -- unreachable: the branch above is guarded by the length check
    | _ => ([PyAction.print usageMsg], true)

/-- The characters of the regex literal prefix `Name: ` from the pattern
`Name: (.*)<` (gen_saves.py line 15 and gen_save_script_tests.py line 15). -/
def nameTagPat : List Char := ("Name: ").toList

/-- The characters strictly before the last `<` of a list, or `none` when no
`<` occurs: the greedy `(.*)` group of `Name: (.*)<` within one line. -/
def upToLastLt : List Char → Option (List Char)
  | [] => none
  | c :: cs =>
    match upToLastLt cs with
    | some g => some (c :: g)
    | none => if c = '<' then some [] else none

/-- The group captured when the pattern matches at the current position:
`.` does not match a newline, so the greedy group runs to the last `<` of
the current line. -/
def lineGroupAt (t : List Char) : Option (List Char) :=
  upToLastLt (t.takeWhile (fun c => c ≠ '\n'))

/-- `re.search('Name: (.*)<', s)` (gen_saves.py line 17 and
gen_save_script_tests.py line 17): the leftmost position where the whole
pattern matches wins, and at that position the group is greedy. -/
def searchNameGroup : List Char → Option (List Char)
  | [] => none
  | c :: rest =>
    match (if listStartsWith nameTagPat (c :: rest) then lineGroupAt (List.drop 6 (c :: rest)) else none) with
    | some g => some g
    | none => searchNameGroup rest

/-- Python `str.strip()` whitespace: space, tab, newline, carriage return,
vertical tab and form feed. -/
def pyIsSpaceChar (c : Char) : Bool :=
  c == ' ' || c == '\t' || c == '\n' || c == '\r' || c == Char.ofNat 11 || c == Char.ofNat 12

/-- Python `str.strip()` over the characters of a string. -/
def pyStrip (l : List Char) : List Char :=
  ((l.dropWhile pyIsSpaceChar).reverse.dropWhile pyIsSpaceChar).reverse

/-- Python `str.lower()` on one character (ASCII letters, which is all the
generated identifiers use). -/
def pyLowerChar (c : Char) : Char :=
  if 'A' ≤ c ∧ c ≤ 'Z' then Char.ofNat (c.toNat + 32) else c

/-- Python `str.replace(" ", "_")` over the characters of a string. -/
def pyReplaceSpace (l : List Char) : List Char :=
  l.map (fun c => if c = ' ' then '_' else c)

/-- The `full_name` derivation of gen_saves.py lines 11-20: the first
dot-separated component of `save_name` lowercased, overridden, when
`re.search('Name: (.*)<', page_content)` matches, by the captured group
stripped, spaces replaced by underscores, and lowercased. -/
def fullNameGenSaves (saveName pageContent : List Char) : List Char :=
  let nameHead := (List.splitOn '.' saveName).headD []
  match searchNameGroup pageContent with
  | some g => (pyReplaceSpace (pyStrip g)).map pyLowerChar
  | none => nameHead.map pyLowerChar

/-- The `full_name` derivation of gen_save_script_tests.py lines 11-20: the
first dot-separated component of `save_name` lowercased, overridden, when
`re.search('Name: (.*)<', page_content)` matches, by the captured group
stripped, spaces replaced by underscores, and lowercased. -/
def fullNameGenScriptTests (saveName pageContent : List Char) : List Char :=
  let nameHead := (List.splitOn '.' saveName).headD []
  match searchNameGroup pageContent with
  | some g => (pyReplaceSpace (pyStrip g)).map pyLowerChar
  | none => nameHead.map pyLowerChar

/-- Inversion of stage sequencing: a successful composite run factors
through a successful first stage and a successful continuation. -/
theorem bindS_ok {α β : Type} {f : Stage α} {g : α → Stage β} {r : ByteReader}
    {b : β} {r2 : ByteReader} (h : bindS f g r = .ok (b, r2)) :
    ∃ a r1, f r = .ok (a, r1) ∧ g a r1 = .ok (b, r2) := by
  unfold bindS at h
  cases hf : f r with
  | error e => rw [hf] at h; cases h
  | ok p =>
    obtain ⟨a, r1⟩ := p
    rw [hf] at h
    exact ⟨a, r1, rfl, h⟩

/-- A stage returning without consuming input is well behaved. -/
theorem goodStage_pureS {α : Type} (a : α) : GoodStage (pureS a) := by
  intro buf pos a2 buf2 pos2 h
  simp only [pureS, Except.ok.injEq, Prod.mk.injEq, ByteReader.mk.injEq] at h
  obtain ⟨ha, hb, hp⟩ := h
  subst hb
  subst hp
  refine ⟨rfl, Nat.le_refl _, Or.inl rfl, ?_, ?_⟩
  · intro k _ _
    simp [pureS, ha]
  · intro k hk hlt
    exact absurd hlt (by omega)

/-- The raw slice read is well behaved. -/
theorem goodStage_readBytesS (n : Nat) : GoodStage (readBytesS n) := by
  intro buf pos a buf2 pos2 h
  unfold readBytesS at h
  by_cases hle : pos + n ≤ buf.length
  · rw [if_pos hle] at h
    simp only [Except.ok.injEq, Prod.mk.injEq, ByteReader.mk.injEq] at h
    obtain ⟨ha, hb, hp⟩ := h
    subst hb
    subst hp
    refine ⟨rfl, Nat.le_add_right _ _, Or.inr hle, ?_, ?_⟩
    · intro k hk hkl
      unfold readBytesS
      rw [if_pos (by simp only [List.length_take]; omega)]
      have hval : ((buf.take k).drop pos).take n = (buf.drop pos).take n := by
        rw [List.drop_take, List.take_take]
        congr 1
        omega
      rw [hval, ha]
    · intro k hk hklt
      unfold readBytesS
      rw [if_neg (by simp only [List.length_take]; omega)]
  · rw [if_neg hle] at h
    cases h

/-- Sequencing preserves well-behavedness. -/
theorem goodStage_bindS {α β : Type} {f : Stage α} {g : α → Stage β}
    (hf : GoodStage f) (hg : ∀ a, GoodStage (g a)) : GoodStage (bindS f g) := by
  intro buf pos b buf2 pos2 h
  obtain ⟨a, r1, hfa, hga⟩ := bindS_ok h
  obtain ⟨hb1, hp1, hd1, hs1, ht1⟩ := hf buf pos a r1.buf r1.pos hfa
  obtain ⟨hb2, hp2, hd2, hs2, ht2⟩ := hg a r1.buf r1.pos b buf2 pos2 hga
  rw [hb1] at hb2 hd2 hs2 ht2
  refine ⟨hb2, Nat.le_trans hp1 hp2, ?_, ?_, ?_⟩
  · rcases hd2 with h2 | h2
    · rcases hd1 with h1 | h1
      · exact Or.inl (h2.trans h1)
      · exact Or.inr (h2 ▸ h1)
    · exact Or.inr h2
  · intro k hk hkl
    unfold bindS
    rw [hs1 k (Nat.le_trans hp2 hk) hkl]
    exact hs2 k hk hkl
  · intro k hk hklt
    by_cases hk1 : k < r1.pos
    · unfold bindS
      rw [ht1 k hk hk1]
    · have hk1' : r1.pos ≤ k := Nat.le_of_not_lt hk1
      have hkl : k ≤ buf.length := by
        rcases hd2 with h2 | h2
        · omega
        · omega
      unfold bindS
      rw [hs1 k hk1' hkl]
      exact ht2 k hk1' hklt

/-- The tag-conversion stage is well behaved: it consumes nothing. -/
theorem goodStage_tagStage (t : Nat) : GoodStage (tagStage t) := by
  intro buf pos a buf2 pos2 h
  unfold tagStage at h
  cases htf : ScriptTagType.tryFrom t with
  | none => rw [htf] at h; cases h
  | some tt =>
    rw [htf] at h
    simp only [Except.ok.injEq, Prod.mk.injEq, ByteReader.mk.injEq] at h
    obtain ⟨ha, hb, hp⟩ := h
    subst hb
    subst hp
    refine ⟨rfl, Nat.le_refl _, Or.inl rfl, ?_, ?_⟩
    · intro k _ _
      unfold tagStage
      rw [htf, ha]
    · intro k hk hlt
      exact absurd hlt (by omega)

/-- The fixed-width reads are well behaved. -/
theorem goodStage_readU8S : GoodStage readU8S :=
  goodStage_bindS (goodStage_readBytesS 1) (fun bs => goodStage_pureS (leNat bs))

/-- The 16-bit read is well behaved. -/
theorem goodStage_readU16S : GoodStage readU16S :=
  goodStage_bindS (goodStage_readBytesS 2) (fun bs => goodStage_pureS (leNat bs))

/-- The 32-bit read is well behaved. -/
theorem goodStage_readU32S : GoodStage readU32S :=
  goodStage_bindS (goodStage_readBytesS 4) (fun bs => goodStage_pureS (leNat bs))

/-- The signed 32-bit read is well behaved. -/
theorem goodStage_readI32S : GoodStage readI32S :=
  goodStage_bindS goodStage_readU32S (fun v => goodStage_pureS (toI32 v))

/-- The count-driven signed-value loop is well behaved. -/
theorem goodStage_readI32List (n : Nat) : GoodStage (readI32List n) := by
  induction n with
  | zero => exact goodStage_pureS []
  | succ n ih =>
    exact goodStage_bindS goodStage_readI32S
      (fun v => goodStage_bindS ih (fun vs => goodStage_pureS (v :: vs)))

/-- The header decoder is well behaved. -/
theorem goodStage_decodeHeader : GoodStage decodeHeader :=
  goodStage_bindS goodStage_readU32S
    (fun lc => goodStage_bindS goodStage_readU32S (fun gc => goodStage_pureS ⟨lc, gc⟩))

/-- The variable-table decoder is well behaved. -/
theorem goodStage_decodeVariables (h : Header) : GoodStage (decodeVariables h) :=
  goodStage_bindS (goodStage_readI32List h.local_variable_count)
    (fun ls => goodStage_bindS (goodStage_readI32List h.global_variable_count)
      (fun gs => goodStage_pureS ⟨ls, gs⟩))

/-- The script-record decoder is well behaved. -/
theorem goodStage_decodeScriptRecord : GoodStage decodeScriptRecord :=
  goodStage_bindS goodStage_readU32S (fun i =>
    goodStage_bindS goodStage_readU32S (fun o =>
      goodStage_bindS goodStage_readU32S (fun c =>
        goodStage_bindS goodStage_readU32S (fun t =>
          goodStage_bindS (goodStage_tagStage t) (fun tt => goodStage_pureS ⟨i, o, c, tt⟩)))))

/-- The script-record loop is well behaved. -/
theorem goodStage_decodeScriptRecords (n : Nat) : GoodStage (decodeScriptRecords n) := by
  induction n with
  | zero => exact goodStage_pureS []
  | succ n ih =>
    exact goodStage_bindS goodStage_decodeScriptRecord
      (fun s => goodStage_bindS ih (fun rest => goodStage_pureS (s :: rest)))

/-- The script-table decoder is well behaved. -/
theorem goodStage_decodeScripts : GoodStage decodeScripts :=
  goodStage_bindS goodStage_readU32S (fun n => goodStage_decodeScriptRecords n)

/-- The whole decode pipeline is well behaved. -/
theorem goodStage_dat2Aux : GoodStage dat2Aux :=
  goodStage_bindS goodStage_decodeHeader (fun h =>
    goodStage_bindS (goodStage_decodeVariables h) (fun v =>
      goodStage_bindS goodStage_decodeScripts (fun s => goodStage_pureS ⟨h, v, s⟩)))

/-- The count-driven loop returns exactly as many values as requested. -/
theorem readI32List_length : ∀ (n : Nat) (r : ByteReader) (vs : List Int) (r2 : ByteReader),
    readI32List n r = .ok (vs, r2) → vs.length = n := by
  intro n
  induction n with
  | zero =>
    intro r vs r2 h
    simp only [readI32List, pureS, Except.ok.injEq, Prod.mk.injEq] at h
    rw [← h.1]
    rfl
  | succ n ih =>
    intro r vs r2 h
    unfold readI32List at h
    obtain ⟨v, r1, h1, h⟩ := bindS_ok h
    obtain ⟨vs0, r1b, h2, h⟩ := bindS_ok h
    simp only [pureS, Except.ok.injEq, Prod.mk.injEq] at h
    rw [← h.1, List.length_cons, ih r1 vs0 r1b h2]

/-- The variable-table decoder returns tables whose lengths are exactly the
header's declared counts. -/
theorem decodeVariables_lengths (h : Header) (r : ByteReader) (vt : VariableTables)
    (r2 : ByteReader) (hd : decodeVariables h r = .ok (vt, r2)) :
    vt.local_variables.length = h.local_variable_count ∧
    vt.global_variables.length = h.global_variable_count := by
  unfold decodeVariables at hd
  obtain ⟨ls, r1, h1, hd⟩ := bindS_ok hd
  obtain ⟨gs, r1b, h2, hd⟩ := bindS_ok hd
  simp only [pureS, Except.ok.injEq, Prod.mk.injEq] at hd
  rw [← hd.1]
  exact ⟨readI32List_length _ _ _ _ h1, readI32List_length _ _ _ _ h2⟩

/-- A successful assembled parse factors through decompression and the
`dat2` pipeline. -/
theorem parseArchive_ok {x : List Nat} {a : Archive} (h : parseArchive x = .ok a) :
    ∃ y, tryDecompress x = .ok y ∧ dat2 y = .ok a := by
  unfold parseArchive at h
  cases ht : tryDecompress x with
  | ok y => rw [ht] at h; exact ⟨y, rfl, h⟩
  | error e => rw [ht] at h; cases h

/-- A successful `dat2` run comes from a successful pipeline run. -/
theorem dat2_ok {y : List Nat} {a : Archive} (h : dat2 y = .ok a) :
    ∃ r2, dat2Aux ⟨y, 0⟩ = .ok (a, r2) := by
  unfold dat2 at h
  cases hd : dat2Aux ⟨y, 0⟩ with
  | ok p =>
    obtain ⟨a0, r⟩ := p
    rw [hd] at h
    injection h with h1
    subst h1
    exact ⟨r, rfl⟩
  | error e => rw [hd] at h; cases h

/-- Inversion of the decode pipeline into its three stages. -/
theorem dat2Aux_ok {r0 : ByteReader} {a : Archive} {rEnd : ByteReader}
    (h : dat2Aux r0 = .ok (a, rEnd)) :
    ∃ hd r1 vt r2 ss r3, decodeHeader r0 = .ok (hd, r1) ∧
      decodeVariables hd r1 = .ok (vt, r2) ∧
      decodeScripts r2 = .ok (ss, r3) ∧ a = ⟨hd, vt, ss⟩ ∧ rEnd = r3 := by
  unfold dat2Aux at h
  obtain ⟨hd, r1, h1, h⟩ := bindS_ok h
  obtain ⟨vt, r2, h2, h⟩ := bindS_ok h
  obtain ⟨ss, r3, h3, h⟩ := bindS_ok h
  simp only [pureS, Except.ok.injEq, Prod.mk.injEq] at h
  exact ⟨hd, r1, vt, r2, ss, r3, h1, h2, h3, h.1.symm, h.2.symm⟩

/-- C1: for every valid archive, decoding yields variable tables whose
lengths equal the header's declared counts exactly: the local_variables
sequence has length header.local_variable_count and the global_variables
sequence has length header.global_variable_count. -/
theorem c1_variable_table_lengths (x : List Nat) (a : Archive)
    (h : parseArchive x = .ok a) :
    a.variableTables.local_variables.length = a.header.local_variable_count ∧
    a.variableTables.global_variables.length = a.header.global_variable_count := by
  obtain ⟨y, hy, hdat⟩ := parseArchive_ok h
  obtain ⟨rE, hAux⟩ := dat2_ok hdat
  obtain ⟨hd, r1, vt, r2, ss, r3, h1, h2, h3, ha, hr⟩ := dat2Aux_ok hAux
  subst ha
  exact decodeVariables_lengths hd r1 vt r2 h2

/-- Witness for C1 at the concrete scenario buffer. -/
theorem c1_variable_table_lengths_witness :
    c7archive.variableTables.local_variables.length = c7archive.header.local_variable_count ∧
    c7archive.variableTables.global_variables.length = c7archive.header.global_variable_count :=
  c1_variable_table_lengths c7buf c7archive (by rfl)

/-- C3 counterexample: the decoder does not itself enforce the script range
bound, so a successfully decoded archive can hold a record whose declared
span (offset 0, count 5) escapes its empty local-variable table. -/
theorem c3_range_counterexample :
    parseArchive c3buf = .ok c3archive ∧
    c3archive.scripts.map (fun s => s.local_variable_offset + s.local_variable_count) = [5] ∧
    c3archive.variableTables.local_variables.length = 0 :=
  ⟨by rfl, by rfl, by rfl⟩

/-- C3 (amended): for every script record of a successful decode whose
declared span lies within the header's declared local-variable count, the
span does not escape the decoded local-variable table; the decoder itself
enforces no bound on the declared span. -/
theorem c3_range_within_declared_count (x : List Nat) (a : Archive) (s : ScriptRecord)
    (h : parseArchive x = .ok a) (hs : s ∈ a.scripts)
    (hfit : s.local_variable_offset + s.local_variable_count ≤ a.header.local_variable_count) :
    s.local_variable_offset + s.local_variable_count ≤
      a.variableTables.local_variables.length := by
  obtain ⟨y, hy, hdat⟩ := parseArchive_ok h
  obtain ⟨rE, hAux⟩ := dat2_ok hdat
  obtain ⟨hd, r1, vt, r2, ss, r3, h1, h2, h3, ha, hr⟩ := dat2Aux_ok hAux
  subst ha
  have hlen := (decodeVariables_lengths hd r1 vt r2 h2).1
  show s.local_variable_offset + s.local_variable_count ≤ vt.local_variables.length
  rw [hlen]
  exact hfit

/-- Witness for the amended C3 at the concrete scenario buffer. -/
theorem c3_range_witness :
    (0 : Nat) + 3 ≤ c7archive.variableTables.local_variables.length :=
  c3_range_within_declared_count c7buf c7archive ⟨7, 0, 3, .spatial⟩ (by rfl)
    (by decide) (by decide)

/-- C4 counterexample: `try_decompress` is not idempotent on every byte
sequence: this compressed buffer expands to bytes that again begin with the
compression signature, and a second application fails instead of returning
the same bytes. -/
theorem c4_idempotence_counterexample :
    tryDecompress c4buf = .ok [68, 65, 84, 50, 0] ∧
    tryDecompress [68, 65, 84, 50, 0] = .error .corruptArchive :=
  ⟨by rfl, by rfl⟩

/-- C4 (amended): on already-decompressed input, i.e. any byte sequence not
beginning with the compression signature, `try_decompress` passes the bytes
through unchanged, and applying it twice equals applying it once. -/
theorem c4_idempotent_on_passthrough (x : List Nat) (h : x.take 4 ≠ dat2Magic) :
    tryDecompress x = .ok x ∧
    Except.bind (tryDecompress x) tryDecompress = tryDecompress x := by
  have h1 : tryDecompress x = .ok x := by unfold tryDecompress; rw [if_neg h]
  refine ⟨h1, ?_⟩
  rw [h1]
  exact h1

/-- Witness for the amended C4 on a signature-free buffer. -/
theorem c4_idempotent_witness :
    tryDecompress [1, 2, 3] = .ok [1, 2, 3] ∧
    Except.bind (tryDecompress [1, 2, 3]) tryDecompress = tryDecompress [1, 2, 3] :=
  c4_idempotent_on_passthrough [1, 2, 3] (by decide)

/-- C5: truncating a valid archive at any byte boundary strictly before the
end of the script table makes the decode fail with UnexpectedEof; no
silently shorter script list or other partial result is returned. -/
theorem c5_truncation_eof (y : List Nat) (a : Archive) (rEnd : ByteReader)
    (h : dat2Aux ⟨y, 0⟩ = .ok (a, rEnd)) (k : Nat) (hk : k < rEnd.pos) :
    dat2 (y.take k) = .error .unexpectedEof := by
  obtain ⟨hb, hp, hd, hs, ht⟩ := goodStage_dat2Aux y 0 a rEnd.buf rEnd.pos h
  have herr := ht k (Nat.zero_le k) hk
  unfold dat2
  rw [herr]

/-- Witness for C5: the concrete scenario buffer truncated at byte 5. -/
theorem c5_truncation_eof_witness :
    dat2 (c7buf.take 5) = .error .unexpectedEof :=
  c5_truncation_eof c7buf c7archive ⟨c7buf, 48⟩ (by rfl) 5 (by decide)

/-- C7: decoding the concrete buffer whose header declares counts 3 and 2,
followed by the little-endian i32 values 1,2,3 then 10,11, then script
count 1 and one record with id 7, offset 0, count 3 and a known-valid tag,
returns local_variables [1,2,3], global_variables [10,11] and exactly one
script record with id 7. -/
theorem c7_concrete_scenario :
    parseArchive c7buf = .ok c7archive ∧
    c7archive.variableTables.local_variables = [1, 2, 3] ∧
    c7archive.variableTables.global_variables = [10, 11] ∧
    c7archive.scripts.map ScriptRecord.id = [7] :=
  ⟨by rfl, by rfl, by rfl, by rfl⟩

/-- A failure while reading further records extends a successful run of the
record loop into a failure of the longer loop. -/
theorem decodeScriptRecords_error_extend :
    ∀ (j m : Nat) (r : ByteReader) (recs : List ScriptRecord) (r4 : ByteReader)
      (e : DecodeError),
    decodeScriptRecords j r = .ok (recs, r4) →
    decodeScriptRecords m r4 = .error e →
    decodeScriptRecords (j + m) r = .error e := by
  intro j
  induction j with
  | zero =>
    intro m r recs r4 e h1 h2
    simp only [decodeScriptRecords, pureS, Except.ok.injEq, Prod.mk.injEq] at h1
    rw [Nat.zero_add, h1.2]
    exact h2
  | succ j ih =>
    intro m r recs r4 e h1 h2
    unfold decodeScriptRecords at h1
    obtain ⟨s, r1, hs, h1⟩ := bindS_ok h1
    obtain ⟨recs0, r1b, hrecs, h1⟩ := bindS_ok h1
    simp only [pureS, Except.ok.injEq, Prod.mk.injEq] at h1
    have hstep : decodeScriptRecords (j + m) r1 = .error e :=
      ih m r1 recs0 r1b e hrecs (by rw [h1.2]; exact h2)
    have harith : j + 1 + m = (j + m) + 1 := by omega
    rw [harith]
    unfold decodeScriptRecords
    simp only [bindS, hs, hstep]

/-- C2: a script record whose raw tag value has no matching ScriptTagType
variant makes the whole decode_scripts call fail with UnrecognizedScriptTag,
and thus the whole archive decode fails: the caller receives no archive, the
bad record is never skipped, and no partial script list is returned. -/
theorem c2_unrecognized_tag_aborts (x y : List Nat) (hd : Header) (vt : VariableTables)
    (r1 r2 r3 r4 ra rb rc rd : ByteReader) (recs : List ScriptRecord)
    (n j m i o c t : Nat)
    (hx : tryDecompress x = .ok y)
    (hh : decodeHeader ⟨y, 0⟩ = .ok (hd, r1))
    (hv : decodeVariables hd r1 = .ok (vt, r2))
    (hn : readU32S r2 = .ok (n, r3))
    (hcount : n = j + (m + 1))
    (hj : decodeScriptRecords j r3 = .ok (recs, r4))
    (hi : readU32S r4 = .ok (i, ra))
    (ho : readU32S ra = .ok (o, rb))
    (hc : readU32S rb = .ok (c, rc))
    (ht : readU32S rc = .ok (t, rd))
    (hbad : ScriptTagType.tryFrom t = none) :
    decodeScripts r2 = .error .unrecognizedScriptTag ∧
    parseArchive x = .error .unrecognizedScriptTag := by
  have hrec : decodeScriptRecord r4 = .error .unrecognizedScriptTag := by
    unfold decodeScriptRecord
    simp only [bindS, hi, ho, hc, ht, tagStage, hbad]
  have hloop1 : decodeScriptRecords (m + 1) r4 = .error .unrecognizedScriptTag := by
    unfold decodeScriptRecords
    simp only [bindS, hrec]
  have hloop : decodeScriptRecords n r3 = .error .unrecognizedScriptTag := by
    rw [hcount]
    exact decodeScriptRecords_error_extend j (m + 1) r3 recs r4 _ hj hloop1
  have hscripts : decodeScripts r2 = .error .unrecognizedScriptTag := by
    unfold decodeScripts
    simp only [bindS, hn, hloop]
  refine ⟨hscripts, ?_⟩
  unfold parseArchive
  rw [hx]
  unfold dat2 dat2Aux
  simp only [bindS, hh, hv, hscripts]

/-- Witness for C2: a concrete archive whose single record carries the
unrecognized raw tag 9. -/
theorem c2_unrecognized_tag_witness :
    decodeScripts ⟨c2buf, 8⟩ = .error .unrecognizedScriptTag ∧
    parseArchive c2buf = .error .unrecognizedScriptTag :=
  c2_unrecognized_tag_aborts c2buf c2buf ⟨0, 0⟩ ⟨[], []⟩
    ⟨c2buf, 8⟩ ⟨c2buf, 8⟩ ⟨c2buf, 12⟩ ⟨c2buf, 12⟩
    ⟨c2buf, 16⟩ ⟨c2buf, 20⟩ ⟨c2buf, 24⟩ ⟨c2buf, 28⟩
    [] 1 0 0 5 0 0 9
    (by rfl) (by rfl) (by rfl) (by rfl) (by rfl) (by rfl)
    (by rfl) (by rfl) (by rfl) (by rfl) (by rfl)

/-- C6: for every reachable Byte Reader state, each fixed-width or slice
read succeeds exactly when at least the requested number of bytes remain,
returning a value drawn from the bytes at the current position, advancing
the position by exactly the consumed width over the unchanged buffer, and
fails with UnexpectedEof otherwise. -/
theorem c6_reader_contract (buf : List Nat) (pos n : Nat) (h : pos ≤ buf.length) :
    readBytesS n ⟨buf, pos⟩ =
      (if n ≤ ByteReader.remaining ⟨buf, pos⟩ then
        .ok ((buf.drop pos).take n, ⟨buf, pos + n⟩)
      else .error .unexpectedEof) ∧
    readU8S ⟨buf, pos⟩ =
      (if 1 ≤ ByteReader.remaining ⟨buf, pos⟩ then
        .ok (leNat ((buf.drop pos).take 1), ⟨buf, pos + 1⟩)
      else .error .unexpectedEof) ∧
    readU16S ⟨buf, pos⟩ =
      (if 2 ≤ ByteReader.remaining ⟨buf, pos⟩ then
        .ok (leNat ((buf.drop pos).take 2), ⟨buf, pos + 2⟩)
      else .error .unexpectedEof) ∧
    readU32S ⟨buf, pos⟩ =
      (if 4 ≤ ByteReader.remaining ⟨buf, pos⟩ then
        .ok (leNat ((buf.drop pos).take 4), ⟨buf, pos + 4⟩)
      else .error .unexpectedEof) := by
  have hrem : ByteReader.remaining ⟨buf, pos⟩ = buf.length - pos := rfl
  have key : ∀ m : Nat, readBytesS m ⟨buf, pos⟩ =
      (if m ≤ ByteReader.remaining ⟨buf, pos⟩ then
        .ok ((buf.drop pos).take m, ⟨buf, pos + m⟩)
      else .error .unexpectedEof) := by
    intro m
    unfold readBytesS
    rw [hrem]
    by_cases hc : pos + m ≤ buf.length
    · rw [if_pos hc, if_pos (by omega)]
    · rw [if_neg hc, if_neg (by omega)]
  have keyW : ∀ m : Nat, bindS (readBytesS m) (fun bs => pureS (leNat bs)) ⟨buf, pos⟩ =
      (if m ≤ ByteReader.remaining ⟨buf, pos⟩ then
        .ok (leNat ((buf.drop pos).take m), ⟨buf, pos + m⟩)
      else .error .unexpectedEof) := by
    intro m
    unfold bindS
    rw [key m]
    by_cases hc : m ≤ ByteReader.remaining ⟨buf, pos⟩
    · rw [if_pos hc, if_pos hc]
      rfl
    · rw [if_neg hc, if_neg hc]
  exact ⟨key n, keyW 1, keyW 2, keyW 4⟩

/-- Witness for C6 at a concrete reader state with enough bytes. -/
theorem c6_reader_contract_witness :
    readBytesS 4 ⟨[1, 2, 3, 4, 5, 6], 1⟩ = .ok ([2, 3, 4, 5], ⟨[1, 2, 3, 4, 5, 6], 5⟩) ∧
    readU8S ⟨[1, 2, 3, 4, 5, 6], 1⟩ = .ok (2, ⟨[1, 2, 3, 4, 5, 6], 2⟩) ∧
    readU16S ⟨[1, 2, 3, 4, 5, 6], 1⟩ = .ok (770, ⟨[1, 2, 3, 4, 5, 6], 3⟩) ∧
    readU32S ⟨[1, 2, 3, 4, 5, 6], 1⟩ = .ok (84148994, ⟨[1, 2, 3, 4, 5, 6], 5⟩) :=
  c6_reader_contract [1, 2, 3, 4, 5, 6] 1 4 (by decide)

/-- C9: when the argument string parses into fewer than 3 tokens,
FindAndDisassemble.invoke prints the usage message and returns without
executing any GDB find or disassemble command: its action trace is exactly
the usage print and holds no gdb.execute action. -/
theorem c9_usage_short_args (ex : String → String) (pyInt : String → Option Int)
    (args : List String) (h : args.length < 3) :
    invoke ex pyInt args = ([PyAction.print usageMsg], true) ∧
    (invoke ex pyInt args).1.all (fun a => !a.isGdbExec) = true := by
  have h1 : invoke ex pyInt args = ([PyAction.print usageMsg], true) := by
    unfold invoke
    rw [if_pos h]
  refine ⟨h1, ?_⟩
  rw [h1]
  rfl

/-- Witness for C9 with one token. -/
theorem c9_usage_short_args_witness :
    invoke (fun _ => "") (fun _ => none) ["0x1000"] = ([PyAction.print usageMsg], true) ∧
    (invoke (fun _ => "") (fun _ => none) ["0x1000"]).1.all (fun a => !a.isGdbExec) = true :=
  c9_usage_short_args (fun _ => "") (fun _ => none) ["0x1000"] (by decide)

/-- C10: both generators derive the test-name identifier the same way from
the same save name and fetched page text: the captured, stripped,
space-to-underscore, lowercased regex group when `Name: (.*)<` matches, and
otherwise the lowercased first dot-separated component of save_name. -/
theorem c10_generators_agree (saveName pageContent : List Char) :
    fullNameGenSaves saveName pageContent = fullNameGenScriptTests saveName pageContent := rfl
